import Mathlib

/-!
Verification of the link-checking core in `linkcheck/checker/__init__.py`.

URLs are modelled as lists of Unicode code points (`List Nat`), matching the
Python 2 `unicode` strings the module manipulates.  Python's `str.lower` is
modelled on the ASCII range (the only range the scheme dispatch inspects).
-/

namespace LinkChecker

/-- A url text: the sequence of Unicode code points of a Python `unicode` string. -/
abbrev Url := List Nat

/-- Code points of a Lean string literal, for writing concrete urls. -/
def S (s : String) : Url := s.data.map Char.toNat

/-- ASCII lowering of one code point, modelling `unicode.lower` on the
ASCII range (the scheme dispatch only ever inspects ASCII prefixes). -/
def lowerCp (n : Nat) : Nat := if 65 ≤ n ∧ n ≤ 90 then n + 32 else n

/-- `unicode.lower` over a whole url text. -/
def lowerUrl (u : Url) : Url := u.map lowerCp

/-- Is a code point an ASCII letter. -/
def isLetterCp (n : Nat) : Bool := (65 ≤ n && n ≤ 90) || (97 ≤ n && n ≤ 122)

/-- May a code point appear in a url scheme after the first letter
(letters, digits, `+`, `-`, `.`). -/
def isSchemeTailCp (n : Nat) : Bool :=
  isLetterCp n || (48 ≤ n && n ≤ 57) || n = 43 || n = 45 || n = 46

/-- Helper for `url_is_absolute`: scan scheme characters until a colon. -/
def schemeRest : Url → Bool
  | [] => false
  | n :: rest => if n = 58 then true else isSchemeTailCp n && schemeRest rest

/-- Modelled from the spec: `linkcheck.url.url_is_absolute` is not under `src/`.
Section 4.1 describes it as testing whether a reference is already a
fully-qualified (scheme-bearing) reference: a leading scheme (a letter followed
by letters, digits, `+`, `-` or `.`) terminated by a colon. -/
def url_is_absolute : Url → Bool
  | [] => false
  | n :: rest => isLetterCp n && schemeRest rest

/-- Python truthiness of an optional string: present and non-empty. -/
def truthy : Option Url → Bool
  | none => false
  | some u => !u.isEmpty

/-- Embedding of `absolute_url` (src/linkcheck/checker/__init__.py:190-209):
return the first truthy, absolute candidate among base_url, base_ref,
parent_url, lowercased; otherwise the empty string. -/
def absolute_url (base_url base_ref parent_url : Option Url) : Url :=
  if truthy base_url && url_is_absolute (base_url.getD []) then
    lowerUrl (base_url.getD [])
  else if truthy base_ref && url_is_absolute (base_ref.getD []) then
    lowerUrl (base_ref.getD [])
  else if truthy parent_url && url_is_absolute (parent_url.getD []) then
    lowerUrl (parent_url.getD [])
  else []

/-- The spec's `resolveAbsolute`, written from the claim's words: the first of
the candidates that is already a fully-qualified scheme-bearing reference,
folded entirely to lower case; empty if none qualifies. -/
def resolveAbsolute_spec : List (Option Url) → Url
  | [] => []
  | none :: rest => resolveAbsolute_spec rest
  | some u :: rest => if url_is_absolute u then lowerUrl u else resolveAbsolute_spec rest

/-- The ten checker variants plus the inert ignored/error variants. -/
inductive UrlClass
  | HttpUrl | FtpUrl | FileUrl | TelnetUrl | MailtoUrl
  | GopherUrl | HttpsUrl | NntpUrl | IgnoredUrl | ErrorUrl
deriving DecidableEq, Repr

/-- `p` is a literal prefix of `u`, modelling `unicode.startswith`. -/
def startsWith (p u : Url) : Bool := p.isPrefixOf u

/-- The scheme tokens of the `ignored_schemes` regular expression
(src/linkcheck/checker/__init__.py:63-98), in source order. -/
def ignored_schemes_tokens : List String :=
  ["acap", "afs", "cid", "data", "dav", "fax", "imap", "ldap", "mailserver",
   "mid", "mms", "modem", "nfs", "opaquelocktoken", "pop", "prospero", "rsync",
   "rtsp", "rtspu", "service", "shttp", "sip", "tel", "tip", "tn3270", "vemmi",
   "wais", "z39.50r", "z39.50s", "chrome", "find", "clsid", "javascript", "isbn"]

/-- Embedding of `ignored_schemes_re.search(url)`: the regex is an alternation
of literal tokens anchored at the start and followed by a colon, so it matches
exactly when some token plus `:` is a prefix of the url (code point 58 is the
colon). -/
def ignored_schemes_match (u : Url) : Bool :=
  ignored_schemes_tokens.any (fun t => startsWith (S t ++ [58]) u)

/-- Embedding of the dispatch chain of `get_url_from`
(src/linkcheck/checker/__init__.py:250-276): first matching scheme prefix wins,
then the ignored filter, then the command-line local-file fallback, else error. -/
def scheme_class (url : Url) (cmdline : Bool) : UrlClass :=
  if startsWith (S "http:") url then UrlClass.HttpUrl
  else if startsWith (S "ftp:") url then UrlClass.FtpUrl
  else if startsWith (S "file:") url then UrlClass.FileUrl
  else if startsWith (S "telnet:") url then UrlClass.TelnetUrl
  else if startsWith (S "mailto:") url then UrlClass.MailtoUrl
  else if startsWith (S "gopher:") url then UrlClass.GopherUrl
  else if startsWith (S "https:") url then UrlClass.HttpsUrl
  else if startsWith (S "nntp:") url || startsWith (S "news:") url
          || startsWith (S "snews:") url then UrlClass.NntpUrl
  else if ignored_schemes_match url then UrlClass.IgnoredUrl
  else if cmdline then UrlClass.FileUrl
  else UrlClass.ErrorUrl

/-- Case-insensitive, colon-terminated scheme-prefix test, written from the
claim's words (both sides folded to lower case before comparing). -/
def ciColonPrefix (tok : String) (u : Url) : Bool :=
  (lowerUrl (S tok) ++ [58]).isPrefixOf (lowerUrl u)

/-- The Ignored-Scheme Filter as the spec states it: case-insensitive
scheme-prefix match over the static token set. -/
def ignored_matches_ci (u : Url) : Bool :=
  ignored_schemes_tokens.any (fun t => ciColonPrefix t u)

/-- The dispatch of the claim, written from the spec's words: first-match
scheme-prefix dispatch in the stated order over case-insensitive
colon-terminated tokens, then the Ignored-Scheme Filter, then the
operator-supplied local-file fallback, else the error variant. -/
def dispatch_spec (u : Url) (cmdline : Bool) : UrlClass :=
  if ciColonPrefix "http" u then UrlClass.HttpUrl
  else if ciColonPrefix "ftp" u then UrlClass.FtpUrl
  else if ciColonPrefix "file" u then UrlClass.FileUrl
  else if ciColonPrefix "telnet" u then UrlClass.TelnetUrl
  else if ciColonPrefix "mailto" u then UrlClass.MailtoUrl
  else if ciColonPrefix "gopher" u then UrlClass.GopherUrl
  else if ciColonPrefix "https" u then UrlClass.HttpsUrl
  else if ciColonPrefix "nntp" u || ciColonPrefix "news" u
          || ciColonPrefix "snews" u then UrlClass.NntpUrl
  else if ignored_matches_ci u then UrlClass.IgnoredUrl
  else if cmdline then UrlClass.FileUrl
  else UrlClass.ErrorUrl

/-- The two configuration sequences the scope registration touches.  A rule is
stored as the raw pattern text handed to `linkcheck.get_link_pat` (which merely
compiles it; see `linkPatSearch` for the search semantics). -/
structure Config where
  internlinks : List Url
  externlinks : List Url
deriving DecidableEq

/-- Embedding of Python 2 `re.escape`: every code point that is not an ASCII
letter, digit or underscore is preceded by a backslash (code point 92). -/
def reEscape : Url → Url
  | [] => []
  | n :: rest =>
    (if isLetterCp n || (48 ≤ n && n ≤ 57) || n = 95 then [n] else [92, n])
      ++ reEscape rest

/-- Modelled from the spec: `linkcheck.url.url_unicode_split` is not under
`src/`.  Section 4.2 says the Scope Matcher extracts the network-location
(domain) component of the seed: the text between `scheme://` and the next
`/`, `?` or `#`. -/
def url_netloc (u : Url) : Url :=
  match u.dropWhile (fun n => n ≠ 58) with
  | 58 :: 47 :: 47 :: rest => rest.takeWhile (fun n => n ≠ 47 && n ≠ 63 && n ≠ 35)
  | _ => []

/-- Modelled from the spec: `linkcheck.url.idna_encode` is not under `src/`.
Section 4.2 says internationalized-domain encoding is applied, yielding no
domain when the domain cannot be encoded; plain ASCII domains encode to
themselves, and a domain outside the encoder's range yields `none`. -/
def idna_encode (domain : Url) : Option Url :=
  if domain.all (fun n => n < 128) then some domain else none

/-- Embedding of `set_intern_url` (src/linkcheck/checker/__init__.py:162-187):
for the file variant append the pattern `^file:`; for the http/https/ftp
variants split out the domain, idna-encode it, and when the encoded domain is
truthy append the pattern `://` followed by the regex-escaped domain;
otherwise leave the configuration unchanged. -/
def set_intern_url (url : Url) (klass : UrlClass) (config : Config) : Config :=
  if klass = UrlClass.FileUrl then
    { config with internlinks := config.internlinks ++ [S "^file:"] }
  else if klass = UrlClass.HttpUrl ∨ klass = UrlClass.HttpsUrl
          ∨ klass = UrlClass.FtpUrl then
    match idna_encode (url_netloc url) with
    | some domain =>
      if domain.isEmpty then config
      else { config with internlinks := config.internlinks ++ [S "://" ++ reEscape domain] }
    | none => config
  else config

/-- Drop the backslashes of a regex-escaped literal. -/
def unEscape : Url → Url
  | [] => []
  | 92 :: c :: rest => c :: unEscape rest
  | c :: rest => c :: unEscape rest

/-- Does `p` occur as a contiguous run anywhere in the second list. -/
def listInfix (p : Url) : Url → Bool
  | [] => p.isEmpty
  | c :: rest => p.isPrefixOf (c :: rest) || listInfix p rest

/-- Interpretation of `re.compile(pat).search(url)` for the two pattern shapes
this module registers (`linkcheck.get_link_pat` just compiles the pattern
text): a pattern anchored by `^` is a literal-prefix test, any other pattern
here is a regex-escaped literal that may occur anywhere in the url. -/
def linkPatSearch (pat url : Url) : Bool :=
  match pat with
  | 94 :: p => (unEscape p).isPrefixOf url
  | p => listInfix (unEscape p) url

/-- The arguments `get_url_from` hands to the chosen variant constructor
`klass(base_url, recursion_level, consumer, parent_url=..., base_ref=...,
line=..., column=..., name=...)`. -/
structure UrlData where
  klass : UrlClass
  base_url : Url
  recursion_level : Nat
  parent_url : Option Url
  base_ref : Option Url
  line : Nat
  column : Nat
  name : Url
deriving DecidableEq

/-- Embedding of `get_url_from` (src/linkcheck/checker/__init__.py:212-283).
Inputs are modelled as already-decoded text (the function first decodes byte
strings with iso8859-15, dropping undecodable bytes).  It resolves the
absolute url, picks the variant class, registers the automatic intern pattern
when the url came from the command line and no intern/extern filter is
configured, and constructs the variant from the original `base_url` text. -/
def get_url_from (base_url : Url) (recursion_level : Nat) (config : Config)
    (parent_url base_ref : Option Url) (line column : Nat) (name : Url)
    (cmdline : Bool) : UrlData × Config :=
  let url := absolute_url (some base_url) base_ref parent_url
  let klass := scheme_class url cmdline
  let config' :=
    if cmdline && config.internlinks.isEmpty && config.externlinks.isEmpty then
      set_intern_url url klass config
    else config
  ({ klass := klass, base_url := base_url, recursion_level := recursion_level,
     parent_url := parent_url, base_ref := base_ref, line := line,
     column := column, name := name }, config')

/-- Embedding of `cgi.escape(s)` (quote left at its default): `&` becomes
`&amp;`, `<` becomes `&lt;`, `>` becomes `&gt;`.  The stdlib applies the three
replacements in sequence, `&` first; since no replacement output contains `<`
or `>` and only the head of its own output contains `&`, this equals the
per-character rewriting used here. -/
def cgi_escape : Url → Url
  | [] => []
  | n :: rest =>
    (if n = 38 then S "&amp;"
     else if n = 60 then S "&lt;"
     else if n = 62 then S "&gt;"
     else [n]) ++ cgi_escape rest

/-- Upper-case hexadecimal digit of a value below 16. -/
def hexDigitCp (n : Nat) : Nat := if n < 10 then 48 + n else 55 + n

/-- Code points that Python 2 `urllib.quote` always passes through:
ASCII letters, digits, `_`, `.`, `-`. -/
def isAlwaysSafe (n : Nat) : Bool :=
  isLetterCp n || (48 ≤ n && n ≤ 57) || n = 95 || n = 46 || n = 45

/-- Embedding of `urllib.quote(s)` with its default safe set (`/`): safe code
points pass through, anything else becomes `%` and two upper-case hex digits.
Modelled for code points below 256 (the stdlib raises beyond that range). -/
def urllib_quote : Url → Url
  | [] => []
  | n :: rest =>
    (if isAlwaysSafe n || n = 47 then [n]
     else [37, hexDigitCp (n / 16 % 16), hexDigitCp (n % 16)]) ++ urllib_quote rest

/-- `os.linesep`, modelled as the POSIX newline. -/
def os_linesep : Url := [10]

/-- Join a list of lines with `os.linesep`, modelling `os.linesep.join`. -/
def joinLines : List Url → Url
  | [] => []
  | [l] => l
  | l :: rest => l ++ os_linesep ++ joinLines rest

/-- One `<a>` line of the synthetic index:
`'<a href="%s">%s</a>' % (cgi.escape(urllib.quote(entry)), cgi.escape(entry))`. -/
def index_link_line (entry : Url) : Url :=
  S "<a href=\"" ++ cgi_escape (urllib_quote entry) ++ S "\">"
    ++ cgi_escape entry ++ S "</a>"

/-- Embedding of `get_index_html` (src/linkcheck/checker/__init__.py:286-299):
a fixed html/body header, one link line per entry, a fixed footer, joined with
the platform line separator. -/
def get_index_html (urls : List Url) : Url :=
  joinLines ([S "<html>", S "<body>"] ++ urls.map index_link_line
    ++ [S "</body>", S "</html>"])

/-- No raw `<` (60) or `>` (62) occurs, and every `&` (38) starts one of the
entities `&amp;`, `&lt;`, `&gt;`: the claim's notion of a text with no
unescaped markup characters. -/
def escapedOk : Url → Bool
  | [] => true
  | n :: rest =>
    if n = 60 ∨ n = 62 then false
    else if n = 38 then
      ((S "amp;").isPrefixOf rest || (S "lt;").isPrefixOf rest
        || (S "gt;").isPrefixOf rest) && escapedOk rest
    else escapedOk rest

/-- The exceptions the scheduler can observe from `consumer.check_url()`:
the cancellation signal, or any other exception (carrying a description). -/
inductive Exc
  | keyboardInterrupt
  | other (msg : Url)
deriving DecidableEq

/-- The calls the scheduler makes into the consumer (the Session collaborator),
in order. -/
inductive Event
  | checkUrl
  | printStatus (curtime starttime : ℚ)
  | loggerEndOutput
  | abort
deriving DecidableEq

/-- Deterministic model of the consumer collaborator: `finished()` becomes true
after `numChecks` calls to `check_url`; `config['status']` is `statusEnabled`;
successive `time.time()` results are `timeAt 0`, `timeAt 1`, ...; the i-th
`check_url` call raises `raiseAt i` (or returns normally on `none`). -/
structure ConsumerModel where
  numChecks : Nat
  statusEnabled : Bool
  timeAt : Nat → ℚ
  raiseAt : Nat → Option Exc

/-- One pass of the `while not consumer.finished()` loop body of
`_check_urls`, iterated over the remaining checks: record the `check_url`
call (stopping with the exception if it raises), then, when status reporting
is enabled, read the clock and print status when more than 5 seconds have
passed since the last emission, updating the emission time.  After the loop,
record `logger_end_output`. -/
def runChecks (c : ConsumerModel) :
    Nat → Nat → Nat → ℚ → ℚ → List Event × Option Exc
  | 0, _, _, _, _ => ([Event.loggerEndOutput], none)
  | remaining + 1, i, tIdx, statusTime, startTime =>
    match c.raiseAt i with
    | some e => ([Event.checkUrl], some e)
    | none =>
      if c.statusEnabled then
        let curtime := c.timeAt tIdx
        if curtime - statusTime > 5 then
          let rest := runChecks c remaining (i + 1) (tIdx + 1) curtime startTime
          (Event.checkUrl :: Event.printStatus curtime startTime :: rest.1, rest.2)
        else
          let rest := runChecks c remaining (i + 1) (tIdx + 1) statusTime startTime
          (Event.checkUrl :: rest.1, rest.2)
      else
        let rest := runChecks c remaining (i + 1) tIdx statusTime startTime
        (Event.checkUrl :: rest.1, rest.2)

/-- Embedding of `_check_urls` (src/linkcheck/checker/__init__.py:120-139):
read the start time, run the loop with the status-emission time initialised to
the start time, and finish with `consumer.logger_end_output()`.  An exception
raised by a check propagates before the finalization line runs. -/
def _check_urls (c : ConsumerModel) : List Event × Option Exc :=
  runChecks c c.numChecks 0 1 (c.timeAt 0) (c.timeAt 0)

/-- Embedding of `check_urls` (src/linkcheck/checker/__init__.py:103-118):
run `_check_urls`; a `KeyboardInterrupt` is caught and answered with
`consumer.abort()`; any other exception propagates. -/
def check_urls (c : ConsumerModel) : List Event × Option Exc :=
  match _check_urls c with
  | (evs, some Exc.keyboardInterrupt) => (evs ++ [Event.abort], none)
  | (evs, exc) => (evs, exc)

/-- Is an event a status print. -/
def isPrintEvent : Event → Bool
  | Event.printStatus _ _ => true
  | _ => false

/-- Is an event the output-finalization call. -/
def isEndEvent : Event → Bool
  | Event.loggerEndOutput => true
  | _ => false

/-- Is an event the abort call. -/
def isAbortEvent : Event → Bool
  | Event.abort => true
  | _ => false

/-- How many status prints a trace contains. -/
def printCount (evs : List Event) : Nat := (evs.filter isPrintEvent).length

/-- How many `logger_end_output` calls a trace contains. -/
def endCount (evs : List Event) : Nat := (evs.filter isEndEvent).length

/-- How many `abort` calls a trace contains. -/
def abortCount (evs : List Event) : Nat := (evs.filter isAbortEvent).length

/-- The `curtime` arguments of the status prints of a trace, in order. -/
def printTimes : List Event → List ℚ
  | [] => []
  | Event.printStatus cur _ :: rest => cur :: printTimes rest
  | _ :: rest => printTimes rest

/-- Each time in the list exceeds its predecessor (initially `prev`) by more
than 5: what the code's strict comparison enforces between status emissions. -/
def gapGT5 (prev : ℚ) : List ℚ → Prop
  | [] => True
  | t :: rest => prev + 5 < t ∧ gapGT5 t rest

/-- Each time in the list exceeds its predecessor (initially `prev`) by at
least 5 seconds: the claim's cadence condition. -/
def gapGE5 (prev : ℚ) : List ℚ → Prop
  | [] => True
  | t :: rest => prev + 5 ≤ t ∧ gapGE5 t rest

/-- A run whose first check raises the cancellation signal mid-run. -/
def kbRun : ConsumerModel :=
  { numChecks := 2, statusEnabled := false, timeAt := fun _ => 0,
    raiseAt := fun i => if i = 0 then some Exc.keyboardInterrupt else none }

/-- A run whose first check raises an ordinary (non-cancellation) exception. -/
def otherRun : ConsumerModel :=
  { numChecks := 1, statusEnabled := false, timeAt := fun _ => 0,
    raiseAt := fun _ => some (Exc.other (S "ValueError")) }

/-- A run of three immediate checks, all at time 0, with status enabled. -/
def quickRun : ConsumerModel :=
  { numChecks := 3, statusEnabled := true, timeAt := fun _ => 0,
    raiseAt := fun _ => none }

lemma lowerCp_idem (n : Nat) : lowerCp (lowerCp n) = lowerCp n := by
  unfold lowerCp
  split_ifs <;> omega

lemma lowerUrl_idem (u : Url) : lowerUrl (lowerUrl u) = lowerUrl u := by
  induction u with
  | nil => rfl
  | cons n t ih =>
    simp only [lowerUrl, List.map_cons] at *
    rw [lowerCp_idem]
    exact congrArg _ (by simpa [lowerUrl] using ih)

lemma truthy_abs (u : Url) :
    (truthy (some u) && url_is_absolute u) = url_is_absolute u := by
  cases u <;> simp [truthy, url_is_absolute]

lemma absolute_url_lower (b r p : Option Url) :
    lowerUrl (absolute_url b r p) = absolute_url b r p := by
  unfold absolute_url
  split_ifs <;> first | rfl | exact lowerUrl_idem _

lemma ciP (u : Url) (h : lowerUrl u = u) (tok tokc : String)
    (htok : lowerUrl (S tok) ++ [58] = S tokc) :
    ciColonPrefix tok u = startsWith (S tokc) u := by
  simp [ciColonPrefix, startsWith, h, htok]

lemma any_congrL {α : Type} (l : List α) (f g : α → Bool)
    (h : ∀ a ∈ l, f a = g a) : l.any f = l.any g := by
  induction l with
  | nil => rfl
  | cons a t ih =>
    simp only [List.any_cons]
    rw [h a (by simp), ih (fun x hx => h x (by simp [hx]))]

lemma ignored_ci (u : Url) (h : lowerUrl u = u) :
    ignored_matches_ci u = ignored_schemes_match u := by
  unfold ignored_matches_ci ignored_schemes_match
  apply any_congrL
  have hall : ∀ t ∈ ignored_schemes_tokens, lowerUrl (S t) = S t := by decide
  intro t ht
  simp [ciColonPrefix, startsWith, h, hall t ht]

lemma dispatch_eq (u : Url) (h : lowerUrl u = u) (cmdline : Bool) :
    scheme_class u cmdline = dispatch_spec u cmdline := by
  unfold scheme_class dispatch_spec
  rw [ciP u h "http" "http:" (by decide), ciP u h "ftp" "ftp:" (by decide),
      ciP u h "file" "file:" (by decide), ciP u h "telnet" "telnet:" (by decide),
      ciP u h "mailto" "mailto:" (by decide), ciP u h "gopher" "gopher:" (by decide),
      ciP u h "https" "https:" (by decide), ciP u h "nntp" "nntp:" (by decide),
      ciP u h "news" "news:" (by decide), ciP u h "snews" "snews:" (by decide),
      ignored_ci u h]

lemma endCount_cons_check (l : List Event) :
    endCount (Event.checkUrl :: l) = endCount l := by
  simp [endCount, List.filter, isEndEvent]

lemma abortCount_cons_check (l : List Event) :
    abortCount (Event.checkUrl :: l) = abortCount l := by
  simp [abortCount, List.filter, isAbortEvent]

lemma endCount_cons_print (cur s0 : ℚ) (l : List Event) :
    endCount (Event.printStatus cur s0 :: l) = endCount l := by
  simp [endCount, List.filter, isEndEvent]

lemma abortCount_cons_print (cur s0 : ℚ) (l : List Event) :
    abortCount (Event.printStatus cur s0 :: l) = abortCount l := by
  simp [abortCount, List.filter, isAbortEvent]

lemma runChecks_counts (c : ConsumerModel) :
    ∀ (rem i tIdx : Nat) (st s0 : ℚ),
      (endCount (runChecks c rem i tIdx st s0).1
          = if (runChecks c rem i tIdx st s0).2 = none then 1 else 0)
      ∧ abortCount (runChecks c rem i tIdx st s0).1 = 0 := by
  intro rem
  induction rem with
  | zero =>
    intro i tIdx st s0
    constructor <;> simp [runChecks, endCount, abortCount, List.filter, isEndEvent, isAbortEvent]
  | succ r ih =>
    intro i tIdx st s0
    unfold runChecks
    cases hr : c.raiseAt i with
    | some e =>
      constructor <;>
        simp [endCount, abortCount, List.filter, isEndEvent, isAbortEvent]
    | none =>
      by_cases hs : c.statusEnabled
      · simp only [hs, if_true]
        by_cases hgt : c.timeAt tIdx - st > 5
        · simp only [hgt, if_true]
          refine ⟨?_, ?_⟩
          · rw [endCount_cons_check, endCount_cons_print]
            exact (ih (i + 1) (tIdx + 1) (c.timeAt tIdx) s0).1
          · rw [abortCount_cons_check, abortCount_cons_print]
            exact (ih (i + 1) (tIdx + 1) (c.timeAt tIdx) s0).2
        · simp only [hgt, if_false]
          refine ⟨?_, ?_⟩
          · rw [endCount_cons_check]
            exact (ih (i + 1) (tIdx + 1) st s0).1
          · rw [abortCount_cons_check]
            exact (ih (i + 1) (tIdx + 1) st s0).2
      · simp only [hs, Bool.false_eq_true, if_false]
        refine ⟨?_, ?_⟩
        · rw [endCount_cons_check]
          exact (ih (i + 1) tIdx st s0).1
        · rw [abortCount_cons_check]
          exact (ih (i + 1) tIdx st s0).2

lemma endCount_append (a b : List Event) :
    endCount (a ++ b) = endCount a + endCount b := by
  simp [endCount, List.filter_append]

lemma abortCount_append (a b : List Event) :
    abortCount (a ++ b) = abortCount a + abortCount b := by
  simp [abortCount, List.filter_append]

lemma printCount_append (a b : List Event) :
    printCount (a ++ b) = printCount a + printCount b := by
  simp [printCount, List.filter_append]

lemma printTimes_append (a b : List Event) :
    printTimes (a ++ b) = printTimes a ++ printTimes b := by
  induction a with
  | nil => rfl
  | cons e t ih => cases e <;> simp [printTimes, ih]

lemma check_urls_cases (c : ConsumerModel) :
    check_urls c
      = if (_check_urls c).2 = some Exc.keyboardInterrupt then
          ((_check_urls c).1 ++ [Event.abort], none)
        else _check_urls c := by
  unfold check_urls
  rcases hx : _check_urls c with ⟨evs, exc⟩
  cases exc with
  | none => simp
  | some e => cases e <;> simp

lemma runChecks_gap (c : ConsumerModel) :
    ∀ (rem i tIdx : Nat) (st s0 : ℚ),
      gapGT5 st (printTimes (runChecks c rem i tIdx st s0).1) := by
  intro rem
  induction rem with
  | zero =>
    intro i tIdx st s0
    simp [runChecks, printTimes, gapGT5]
  | succ r ih =>
    intro i tIdx st s0
    unfold runChecks
    cases hr : c.raiseAt i with
    | some e => simp [printTimes, gapGT5]
    | none =>
      by_cases hs : c.statusEnabled
      · simp only [hs, if_true]
        by_cases hgt : c.timeAt tIdx - st > 5
        · simp only [hgt, if_true]
          simp only [printTimes, gapGT5]
          exact ⟨by linarith, ih (i + 1) (tIdx + 1) (c.timeAt tIdx) s0⟩
        · simp only [hgt, if_false]
          simp only [printTimes]
          exact ih (i + 1) (tIdx + 1) st s0
      · simp only [hs, Bool.false_eq_true, if_false]
        simp only [printTimes]
        exact ih (i + 1) tIdx st s0

lemma gapGT5_le (l : List ℚ) : ∀ prev, gapGT5 prev l → gapGE5 prev l := by
  induction l with
  | nil => intro prev _; trivial
  | cons t rest ih =>
    intro prev h
    exact ⟨le_of_lt h.1, ih t h.2⟩

lemma runChecks_disabled (c : ConsumerModel) (hs : c.statusEnabled = false) :
    ∀ (rem i tIdx : Nat) (st s0 : ℚ),
      printCount (runChecks c rem i tIdx st s0).1 = 0 := by
  intro rem
  induction rem with
  | zero =>
    intro i tIdx st s0
    simp [runChecks, printCount, List.filter, isPrintEvent]
  | succ r ih =>
    intro i tIdx st s0
    unfold runChecks
    cases hr : c.raiseAt i with
    | some e => simp [printCount, List.filter, isPrintEvent]
    | none =>
      simp only [hs, Bool.false_eq_true, if_false]
      simpa [printCount, List.filter, isPrintEvent] using ih (i + 1) tIdx st s0

lemma runChecks_short (c : ConsumerModel)
    (h : ∀ k, c.timeAt k - c.timeAt 0 < 5) :
    ∀ (rem i tIdx : Nat) (st : ℚ), c.timeAt 0 ≤ st →
      printCount (runChecks c rem i tIdx st (c.timeAt 0)).1 = 0 := by
  intro rem
  induction rem with
  | zero =>
    intro i tIdx st hst
    simp [runChecks, printCount, List.filter, isPrintEvent]
  | succ r ih =>
    intro i tIdx st hst
    unfold runChecks
    cases hr : c.raiseAt i with
    | some e => simp [printCount, List.filter, isPrintEvent]
    | none =>
      by_cases hs : c.statusEnabled
      · simp only [hs, if_true]
        have hngt : ¬(c.timeAt tIdx - st > 5) := by
          have := h tIdx
          push_neg
          linarith
        simp only [hngt, if_false]
        simpa [printCount, List.filter, isPrintEvent] using ih (i + 1) (tIdx + 1) st hst
      · simp only [hs, Bool.false_eq_true, if_false]
        simpa [printCount, List.filter, isPrintEvent] using ih (i + 1) tIdx st hst

lemma escapedOk_cgi (u : Url) : escapedOk (cgi_escape u) = true := by
  have h1 : S "amp;" = [97, 109, 112, 59] := by decide
  have h2 : S "lt;" = [108, 116, 59] := by decide
  have h3 : S "gt;" = [103, 116, 59] := by decide
  have hA : S "&amp;" = [38, 97, 109, 112, 59] := by decide
  have hL : S "&lt;" = [38, 108, 116, 59] := by decide
  have hG : S "&gt;" = [38, 103, 116, 59] := by decide
  induction u with
  | nil => rfl
  | cons n t ih =>
    simp only [cgi_escape]
    split_ifs with h38 h60 h62
    · rw [hA]
      simp [escapedOk, List.isPrefixOf, h1, ih]
    · rw [hL]
      simp [escapedOk, List.isPrefixOf, h2, ih]
    · rw [hG]
      simp [escapedOk, List.isPrefixOf, h3, ih]
    · simp [escapedOk, h38, h60, h62, ih]

lemma abs_spec3 (b r p : Option Url) :
    absolute_url b r p = resolveAbsolute_spec [b, r, p] := by
  have tn : truthy none = false := rfl
  rcases b with _ | u <;> rcases r with _ | v <;> rcases p with _ | w <;>
    simp only [absolute_url, resolveAbsolute_spec, Option.getD_some, Option.getD_none,
      truthy_abs, tn, Bool.false_and, Bool.false_eq_true, if_false]

/-- C1: for every resolved reference text, `get_url_from` selects the variant
by first-match scheme-prefix dispatch in the order http, ftp, file, telnet,
mailto, gopher, https, nntp|news|snews, the tokens matched case-insensitively
as colon-terminated prefixes of the resolved text; with no match it builds the
ignored variant when the Ignored-Scheme Filter matches, else the file variant
when the reference is operator-supplied, else the error variant.  The
schemeless operator-supplied example resolves empty and yields the file
variant, and the error variant when not operator-supplied. -/
theorem C1_scheme_dispatch :
    (∀ (b : Url) (rl : Nat) (cfg : Config) (p br : Option Url) (l col : Nat)
        (nm : Url) (cm : Bool),
      (get_url_from b rl cfg p br l col nm cm).1.klass
        = dispatch_spec (absolute_url (some b) br p) cm)
    ∧ (get_url_from (S "somefile.txt") 0 ⟨[], []⟩ none none 0 0 [] true).1.klass
        = UrlClass.FileUrl
    ∧ (get_url_from (S "somefile.txt") 0 ⟨[], []⟩ none none 0 0 [] false).1.klass
        = UrlClass.ErrorUrl := by
  refine ⟨?_, by decide, by decide⟩
  intro b rl cfg p br l col nm cm
  exact dispatch_eq _ (absolute_url_lower (some b) br p) cm

/-- C2: `absolute_url` returns the first of its three candidates (link-tag
location, document base, parent location, in that order) that is already a
fully-qualified scheme-bearing reference, folded entirely to lower case, and
the empty string when none qualifies; in particular it folds
`HTTP://Example.com/Path` to `http://example.com/path`. -/
theorem C2_resolveAbsolute :
    (∀ b r p : Option Url, absolute_url b r p = resolveAbsolute_spec [b, r, p])
    ∧ absolute_url (some (S "HTTP://Example.com/Path")) none none
        = S "http://example.com/path" :=
  ⟨abs_spec3, by decide⟩

/-- C3 counterexample: in the run `kbRun`, whose first check raises the
cancellation signal, the scheduler never calls `logger_end_output`, refuting
the claim that the finalization call happens exactly once on every
termination path. -/
theorem C3_cancel_no_finalize_cex :
    ¬ (endCount (check_urls kbRun).1 = 1) := by decide

/-- C3 amended: on a normal run `logger_end_output` is called exactly once and
`abort` never; when a check raises `KeyboardInterrupt` mid-run, `abort` is
called exactly once, as the scheduler's final call, and the scheduler itself
never calls `logger_end_output` on that path; any other raised exception also
prevents the finalization call. -/
theorem C3_termination_calls (c : ConsumerModel) :
    (endCount (check_urls c).1 = if (_check_urls c).2 = none then 1 else 0)
    ∧ (abortCount (check_urls c).1
        = if (_check_urls c).2 = some Exc.keyboardInterrupt then 1 else 0)
    ∧ ((_check_urls c).2 = some Exc.keyboardInterrupt →
        (check_urls c).1.getLast? = some Event.abort) := by
  have h : (endCount (_check_urls c).1 = if (_check_urls c).2 = none then 1 else 0)
      ∧ abortCount (_check_urls c).1 = 0 :=
    runChecks_counts c c.numChecks 0 1 (c.timeAt 0) (c.timeAt 0)
  rw [check_urls_cases c]
  by_cases hkb : (_check_urls c).2 = some Exc.keyboardInterrupt
  · rw [if_pos hkb]
    have hne : ¬((_check_urls c).2 = none) := by rw [hkb]; simp
    refine ⟨?_, ?_, fun _ => ?_⟩
    · rw [endCount_append, h.1]
      simp [endCount, List.filter, isEndEvent]
    · rw [abortCount_append, h.2, if_pos hkb]
      simp [abortCount, List.filter, isAbortEvent]
    · exact List.getLast?_concat _
  · rw [if_neg hkb]
    exact ⟨h.1, by rw [h.2, if_neg hkb], fun hc => absurd hc hkb⟩

/-- C3 witness: in the concrete cancelled run, `abort` is called exactly once
and is the scheduler's final call. -/
theorem C3_termination_calls_witness :
    abortCount (check_urls kbRun).1 = 1
    ∧ (check_urls kbRun).1.getLast? = some Event.abort :=
  ⟨((C3_termination_calls kbRun).2.1).trans (by decide),
   (C3_termination_calls kbRun).2.2 (by decide)⟩

/-- C4 counterexample: seeding `http://example.com/start` registers the
pattern `://example\.com` — not a rule matching `http://example.com` as a
prefix: the pattern text omits the scheme, and under the regex search
semantics the registered rule also accepts `ftp://example.com/file`, which
does not begin with `http://example.com`. -/
theorem C4_scope_pattern_cex :
    (get_url_from (S "http://example.com/start") 0 ⟨[], []⟩ none none 0 0 [] true).2.internlinks
      = [S "://example\\.com"]
    ∧ S "://example\\.com" ≠ S "http://example\\.com"
    ∧ linkPatSearch (S "://example\\.com") (S "ftp://example.com/file") = true
    ∧ startsWith (S "http://example.com") (S "ftp://example.com/file") = false := by
  refine ⟨by decide, by decide, by decide, by decide⟩

/-- C4 amended: for a file-variant seed an always-intern `^file:` rule is
registered; for an http/https/ftp seed the registered rule's pattern is
`://` followed by the regex-escaped encoded domain — the scheme is omitted and
the pattern is matched as an unanchored regex search, not as a prefix.
Seeding `http://example.com/start` registers `://example\.com`, which
`http://example.com/sub/page` matches and `http://other.org/page` does not. -/
theorem C4_scope_pattern_amended :
    (∀ (url : Url) (cfg : Config),
      set_intern_url url UrlClass.FileUrl cfg
        = { cfg with internlinks := cfg.internlinks ++ [S "^file:"] })
    ∧ (get_url_from (S "http://example.com/start") 0 ⟨[], []⟩ none none 0 0 [] true).2.internlinks
        = [S "://" ++ reEscape (S "example.com")]
    ∧ linkPatSearch (S "://" ++ reEscape (S "example.com"))
        (S "http://example.com/sub/page") = true
    ∧ linkPatSearch (S "://" ++ reEscape (S "example.com"))
        (S "http://other.org/page") = false
    ∧ linkPatSearch (S "^file:") (S "file:///home/user/calendar.html") = true := by
  refine ⟨fun url cfg => rfl, by decide, by decide, by decide, by decide⟩

/-- C5: the scheduler catches nothing but the cancellation signal: whenever
the loop raises any other exception, `check_urls` propagates it unchanged and
appends no further consumer call (no abort, no finalization). -/
theorem C5_only_keyboard_interrupt_caught (c : ConsumerModel) (m : Url)
    (h : (_check_urls c).2 = some (Exc.other m)) :
    check_urls c = ((_check_urls c).1, some (Exc.other m)) := by
  have hx : _check_urls c = ((_check_urls c).1, some (Exc.other m)) := by
    rw [← h]
  unfold check_urls
  rw [hx]

/-- C5 witness: a run whose first check raises a non-cancellation exception
propagates it out of `check_urls`. -/
theorem C5_only_keyboard_interrupt_caught_witness :
    check_urls otherRun = ((_check_urls otherRun).1, some (Exc.other (S "ValueError"))) :=
  C5_only_keyboard_interrupt_caught otherRun (S "ValueError") (by decide)

/-- C6: the status print happens only when status reporting is enabled, only
with at least 5 seconds between emissions (measured from the run's start for
the first), with the last-emission time updated on each print; consequently a
run whose clock readings all stay within 5 seconds of the start prints status
at most once. -/
theorem C6_status_cadence (c : ConsumerModel) :
    (c.statusEnabled = false → printCount (check_urls c).1 = 0)
    ∧ gapGE5 (c.timeAt 0) (printTimes (check_urls c).1)
    ∧ ((∀ k, c.timeAt k - c.timeAt 0 < 5) → printCount (check_urls c).1 ≤ 1) := by
  have hpc : printCount (check_urls c).1 = printCount (_check_urls c).1 := by
    rw [check_urls_cases c]
    split_ifs with hkb
    · rw [printCount_append]
      simp [printCount, List.filter, isPrintEvent]
    · rfl
  have hpt : printTimes (check_urls c).1 = printTimes (_check_urls c).1 := by
    rw [check_urls_cases c]
    split_ifs with hkb
    · rw [printTimes_append]
      simp [printTimes]
    · rfl
  refine ⟨?_, ?_, ?_⟩
  · intro hs
    rw [hpc]
    exact runChecks_disabled c hs c.numChecks 0 1 (c.timeAt 0) (c.timeAt 0)
  · rw [hpt]
    exact gapGT5_le _ (c.timeAt 0) (runChecks_gap c c.numChecks 0 1 (c.timeAt 0) (c.timeAt 0))
  · intro h
    have h0 : printCount (_check_urls c).1 = 0 :=
      runChecks_short c h c.numChecks 0 1 (c.timeAt 0) le_rfl
    rw [hpc, h0]
    norm_num

/-- C6 witness: a three-check run completing instantly prints status at most
once. -/
theorem C6_status_cadence_witness : printCount (check_urls quickRun).1 ≤ 1 :=
  (C6_status_cadence quickRun).2.2 (fun k => by norm_num [quickRun])

/-- C7: for a network seed (http/https/ftp variant) whose domain the
internationalized-domain encoder rejects, the automatic scope registration
registers no rule: `set_intern_url` returns the configuration unchanged. -/
theorem C7_idna_silent_failure (url : Url) (cfg : Config) (klass : UrlClass)
    (hk : klass = UrlClass.HttpUrl ∨ klass = UrlClass.HttpsUrl ∨ klass = UrlClass.FtpUrl)
    (h : idna_encode (url_netloc url) = none) :
    set_intern_url url klass cfg = cfg := by
  unfold set_intern_url
  rw [if_neg (by rcases hk with h1 | h1 | h1 <;> simp [h1]), if_pos hk, h]

/-- C7 witness: a seed whose domain contains a code point the modelled encoder
rejects registers no rule. -/
theorem C7_idna_silent_failure_witness :
    idna_encode (url_netloc (S "http://exämple.com/start")) = none
    ∧ set_intern_url (S "http://exämple.com/start") UrlClass.HttpUrl ⟨[], []⟩ = ⟨[], []⟩ :=
  ⟨by decide,
   C7_idna_silent_failure (S "http://exämple.com/start") ⟨[], []⟩ UrlClass.HttpUrl
     (Or.inl rfl) (by decide)⟩

/-- C8: the synthetic index wraps exactly one link line per entry between the
fixed html/body header and footer; every label and every href (percent-encoded
and then entity-escaped) is free of unescaped `<`, `>` and `&`; the example
input produces exactly the expected document. -/
theorem C8_index_html_escaping :
    (∀ e : Url, escapedOk (cgi_escape e) = true
        ∧ escapedOk (cgi_escape (urllib_quote e)) = true)
    ∧ (∀ urls : List Url,
        get_index_html urls
          = joinLines ([S "<html>", S "<body>"] ++ urls.map index_link_line
              ++ [S "</body>", S "</html>"]))
    ∧ get_index_html [S "a&b", S "<script>"]
        = S "<html>\n<body>\n<a href=\"a%26b\">a&amp;b</a>\n<a href=\"%3Cscript%3E\">&lt;script&gt;</a>\n</body>\n</html>" :=
  ⟨fun e => ⟨escapedOk_cgi e, escapedOk_cgi (urllib_quote e)⟩, fun _ => rfl, by decide⟩

/-- C9: the variant is constructed from the original decoded `base_url` text,
never from the case-folded resolved string, which is used only for the variant
dispatch and for the automatic scope registration; for the mixed-case example
the constructor text differs from the folded resolved text. -/
theorem C9_ctor_preserves_case :
    (∀ (b : Url) (rl : Nat) (cfg : Config) (p br : Option Url) (l col : Nat)
        (nm : Url) (cm : Bool),
      (get_url_from b rl cfg p br l col nm cm).1.base_url = b
      ∧ (get_url_from b rl cfg p br l col nm cm).1.klass
          = scheme_class (absolute_url (some b) br p) cm
      ∧ (get_url_from b rl cfg p br l col nm cm).2
          = (if cm && cfg.internlinks.isEmpty && cfg.externlinks.isEmpty then
               set_intern_url (absolute_url (some b) br p)
                 (scheme_class (absolute_url (some b) br p) cm) cfg
             else cfg))
    ∧ (get_url_from (S "HTTP://Example.com/Path") 0 ⟨[], []⟩ none none 0 0 [] false).1.base_url
        = S "HTTP://Example.com/Path"
    ∧ S "HTTP://Example.com/Path"
        ≠ absolute_url (some (S "HTTP://Example.com/Path")) none none :=
  ⟨fun b rl cfg p br l col nm cm => ⟨rfl, rfl, rfl⟩, rfl, by decide⟩

/-- C10: an operator-supplied seed whose chosen variant is none of file, http,
https or ftp leaves the intern/extern rule sequences unchanged. -/
theorem C10_no_scope_rule_other_variants (b : Url) (rl : Nat) (cfg : Config)
    (p br : Option Url) (l col : Nat) (nm : Url)
    (h : scheme_class (absolute_url (some b) br p) true
        ∉ [UrlClass.FileUrl, UrlClass.HttpUrl, UrlClass.HttpsUrl, UrlClass.FtpUrl]) :
    (get_url_from b rl cfg p br l col nm true).2 = cfg := by
  have hf : scheme_class (absolute_url (some b) br p) true ≠ UrlClass.FileUrl :=
    fun hq => h (by rw [hq]; simp)
  have hh : scheme_class (absolute_url (some b) br p) true ≠ UrlClass.HttpUrl :=
    fun hq => h (by rw [hq]; simp)
  have hs : scheme_class (absolute_url (some b) br p) true ≠ UrlClass.HttpsUrl :=
    fun hq => h (by rw [hq]; simp)
  have hftp : scheme_class (absolute_url (some b) br p) true ≠ UrlClass.FtpUrl :=
    fun hq => h (by rw [hq]; simp)
  show (if true && cfg.internlinks.isEmpty && cfg.externlinks.isEmpty then
          set_intern_url (absolute_url (some b) br p)
            (scheme_class (absolute_url (some b) br p) true) cfg
        else cfg) = cfg
  split_ifs with hcond
  · unfold set_intern_url
    rw [if_neg hf, if_neg (by simp [hh, hs, hftp])]
  · rfl

/-- C10 witness: a mailto seed given on the command line registers no rule. -/
theorem C10_no_scope_rule_other_variants_witness :
    scheme_class (absolute_url (some (S "mailto:user@example.com")) none none) true
      ∉ [UrlClass.FileUrl, UrlClass.HttpUrl, UrlClass.HttpsUrl, UrlClass.FtpUrl]
    ∧ (get_url_from (S "mailto:user@example.com") 0 ⟨[], []⟩ none none 0 0 [] true).2
        = (⟨[], []⟩ : Config) :=
  ⟨by decide,
   C10_no_scope_rule_other_variants (S "mailto:user@example.com") 0 ⟨[], []⟩
     none none 0 0 [] (by decide)⟩

end LinkChecker
